import Mathlib

/-!
Shallow embedding of the AstroBox-NG account module (Rust sources
src/lib.rs, src/models.rs, src/storage.rs) together with proofs of the
behavioural properties stated in the specification.

JSON values (serde_json::Value) are modelled by the inductive `Value`;
numbers are modelled as integers, which covers every value the claims
mention. The frontend bridge is modelled as an association list from
string keys to JSON values; a bridge call that completes successfully
behaves as a pure lookup / update / delete on that map, while the
acknowledgement handling of the mutating calls is modelled separately
by `handleAckReply`.
-/

namespace AccountModule

/-- JSON value, modelling serde_json::Value with integer numbers. -/
inductive Value where
  | null
  | bool (b : Bool)
  | num (n : Int)
  | str (s : String)
  | arr (elems : List Value)
  | obj (fields : List (String × Value))
deriving Repr

/-- AccountRecord from src/models.rs: id, name, optional avatar and token,
and an open extension map from string keys to JSON values. -/
structure AccountRecord where
  id : String
  name : String
  avatar : Option String
  token : Option String
  extra : List (String × Value)
deriving Repr

namespace AccountRecord

/-- AccountRecord::new from src/models.rs. -/
def new (id name : String) : AccountRecord :=
  { id := id, name := name, avatar := none, token := none, extra := [] }

/-- AccountRecord::extra_value from src/models.rs: read-only lookup. -/
def extra_value (r : AccountRecord) (key : String) : Option Value :=
  (r.extra.find? (fun p => p.1 == key)).map (fun p => p.2)

/-- AccountRecord::extra_as from src/models.rs, with the serde
deserializer for the target type T passed explicitly as a function
from JSON values to Option T. -/
def extra_as {T : Type} (dec : Value → Option T) (r : AccountRecord)
    (key : String) : Option T :=
  (r.extra_value key).bind dec

end AccountRecord

/-- Rust char::is_ascii_alphanumeric. -/
def isAsciiAlphanumeric (c : Char) : Bool :=
  (decide (97 ≤ c.toNat) && decide (c.toNat ≤ 122)) ||
  (decide (65 ≤ c.toNat) && decide (c.toNat ≤ 90)) ||
  (decide (48 ≤ c.toNat) && decide (c.toNat ≤ 57))

/-- Rust char::to_ascii_lowercase: adds 32 to an ASCII uppercase letter,
leaves every other character unchanged. -/
def toAsciiLowercase (c : Char) : Char :=
  if 65 ≤ c.toNat ∧ c.toNat ≤ 90 then Char.ofNat (c.toNat + 32) else c

/-- The per-character step of normalize_key from src/storage.rs. -/
def normalizeChar (c : Char) : Char :=
  if isAsciiAlphanumeric c then toAsciiLowercase c else '_'

/-- normalize_key from src/storage.rs: map every character, lowercasing
ASCII alphanumerics and replacing everything else with an underscore. -/
def normalize_key (input : String) : String :=
  ⟨input.data.map normalizeChar⟩

/-- Rust char::is_whitespace: membership of the Unicode White_Space set,
listed by code point. -/
def rustIsWhitespace (c : Char) : Bool :=
  let n := c.toNat
  (decide (9 ≤ n) && decide (n ≤ 13)) || decide (n = 32) || decide (n = 133) ||
  decide (n = 160) || decide (n = 5760) ||
  (decide (8192 ≤ n) && decide (n ≤ 8202)) || decide (n = 8232) ||
  decide (n = 8233) || decide (n = 8239) || decide (n = 8287) ||
  decide (n = 12288)

/-- Rust str::trim: drop leading and trailing whitespace characters. -/
def rustTrim (s : String) : String :=
  ⟨((s.data.dropWhile rustIsWhitespace).reverse.dropWhile
      rustIsWhitespace).reverse⟩

/-- Errors of the storage layer, following the taxonomy of the module:
transport failure, frontend rejection (acknowledgement with
success=false), (de)serialization failure, and local validation
failure (empty account id). -/
inductive StoreError where
  | transport
  | rejection
  | serialization
  | validation
deriving Repr, DecidableEq

/-- Serialization of an optional string field, as serde does for
Option where None becomes null. -/
def optStrToValue : Option String → Value
  | none => .null
  | some s => .str s

/-- serde serialization of an AccountRecord into a JSON object with
fields id, name, avatar, token, extra. -/
def serializeRecord (r : AccountRecord) : Value :=
  .obj [("id", .str r.id), ("name", .str r.name),
        ("avatar", optStrToValue r.avatar), ("token", optStrToValue r.token),
        ("extra", .obj r.extra)]

/-- Field lookup in a JSON object. -/
def lookupField (fs : List (String × Value)) (k : String) : Option Value :=
  (fs.find? (fun p => p.1 == k)).map (fun p => p.2)

/-- serde deserialization of a required String field: the field must be
present and be a JSON string. -/
def decodeString : Option Value → Option String
  | some (.str s) => some s
  | _ => none

/-- serde deserialization of an Option String field carrying
serde(default): an absent field or a null value gives none, a string
gives some, anything else fails. -/
def decodeOptString : Option Value → Option (Option String)
  | none => some none
  | some .null => some none
  | some (.str s) => some (some s)
  | some _ => none

/-- serde deserialization of the extra map carrying serde(default): an
absent field gives the empty map, an object gives its fields, anything
else fails. -/
def decodeExtra : Option Value → Option (List (String × Value))
  | none => some []
  | some (.obj fs) => some fs
  | some _ => none

/-- serde deserialization of a JSON value into an AccountRecord: the
value must be an object; id and name are required strings, avatar and
token optional strings, extra an optional object. -/
def deserializeRecord (v : Value) : Option AccountRecord :=
  match v with
  | .obj fs =>
    match decodeString (lookupField fs "id"),
          decodeString (lookupField fs "name"),
          decodeOptString (lookupField fs "avatar"),
          decodeOptString (lookupField fs "token"),
          decodeExtra (lookupField fs "extra") with
    | some i, some nm, some av, some tk, some ex =>
        some { id := i, name := nm, avatar := av, token := tk, extra := ex }
    | _, _, _, _, _ => none
  | _ => none

/-- The key-value state held by the frontend bridge, modelled as an
association list from string keys to JSON values. -/
abbrev Bridge := List (String × Value)

/-- Successful host/storage/local/get_json: lookup of the key. -/
def bridgeGet (b : Bridge) (k : String) : Option Value :=
  (b.find? (fun p => p.1 == k)).map (fun p => p.2)

/-- Successful host/storage/local/set_json: replace the value stored at
the key, or append the binding when the key is absent. -/
def bridgeSet (b : Bridge) (k : String) (v : Value) : Bridge :=
  match b with
  | [] => [(k, v)]
  | (k1, v1) :: rest =>
      if k1 == k then (k, v) :: rest else (k1, v1) :: bridgeSet rest k v

/-- Successful host/storage/local/remove: drop every binding of the
key. -/
def bridgeRemove (b : Bridge) (k : String) : Bridge :=
  b.filter (fun p => !(p.1 == k))

/-- Outcome of a mutating bridge call as seen before acknowledgement
handling: the transport either fails or delivers an acknowledgement
with a success flag. -/
inductive BridgeReply where
  | transportFail
  | ack (success : Bool)
deriving Repr, DecidableEq

/-- The acknowledgement handling shared by local_storage_set_json and
local_storage_remove in src/storage.rs: a transport failure is
propagated as a transport error, an acknowledgement with success=false
becomes a rejection error, and success=true is Ok. -/
def handleAckReply (r : BridgeReply) : Except StoreError Unit :=
  match r with
  | .transportFail => .error .transport
  | .ack true => .ok ()
  | .ack false => .error .rejection

/-- AccountStore from src/storage.rs: a wrapper holding one storage
key. -/
structure AccountStore where
  key : String
deriving Repr, DecidableEq

namespace AccountStore

/-- AccountStore::new: storage key account_provider_ followed by the
normalized provider name. -/
def new (provider_name : String) : AccountStore :=
  { key := "account_provider_" ++ normalize_key provider_name }

/-- AccountStore::load over a bridge whose transport succeeds: absent
key gives none, a stored value that deserializes gives some, and a
stored value that does not deserialize is a serialization error. -/
def load (s : AccountStore) (b : Bridge) :
    Except StoreError (Option AccountRecord) :=
  match bridgeGet b s.key with
  | none => .ok none
  | some v =>
      match deserializeRecord v with
      | some r => .ok (some r)
      | none => .error .serialization

/-- AccountStore::save over a bridge whose transport succeeds and whose
acknowledgement is success=true: stores the serialized record at the
key, returning the updated bridge state. -/
def save (s : AccountStore) (b : Bridge) (account : AccountRecord) : Bridge :=
  bridgeSet b s.key (serializeRecord account)

/-- AccountStore::clear over a bridge whose transport succeeds and whose
acknowledgement is success=true: removes the key. -/
def clear (s : AccountStore) (b : Bridge) : Bridge :=
  bridgeRemove b s.key

/-- AccountStore::list_accounts: the 0- or 1-element list wrapping
load. -/
def list_accounts (s : AccountStore) (b : Bridge) :
    Except StoreError (List AccountRecord) :=
  (s.load b).map (fun o => o.toList)

/-- AccountStore::get_account: load then filter by id equality. -/
def get_account (s : AccountStore) (b : Bridge) (account_id : String) :
    Except StoreError (Option AccountRecord) :=
  (s.load b).map (fun o => o.filter (fun a => a.id == account_id))

/-- AccountStore::upsert_account: validation error when the trimmed id
is empty (returning before any bridge call, so the bridge state is
unchanged), otherwise save and return the record unchanged. The result
pairs the bridge state after the call with the returned value. -/
def upsert_account (s : AccountStore) (b : Bridge) (account : AccountRecord) :
    Bridge × Except StoreError AccountRecord :=
  if (rustTrim account.id).isEmpty then (b, .error .validation)
  else (s.save b account, .ok account)

/-- AccountStore::remove_account: load, and clear only when a record is
stored and its id equals the requested one. The result pairs the
bridge state after the call with the returned value. -/
def remove_account (s : AccountStore) (b : Bridge) (account_id : String) :
    Bridge × Except StoreError Unit :=
  match s.load b with
  | .error e => (b, .error e)
  | .ok none => (b, .ok ())
  | .ok (some a) =>
      if a.id == account_id then (s.clear b, .ok ()) else (b, .ok ())

end AccountStore

/-- An account provider as the registry sees it: a stable name plus an
instance tag distinguishing distinct shared instances that may carry
the same name. -/
structure Provider where
  inst : Nat
  provider_name : String
deriving Repr, DecidableEq

/-- The process-wide provider registry state: the vector of registered
providers in registration order. -/
abbrev Registry := List Provider

/-- add_account_provider from src/lib.rs: push onto the vector. -/
def add_account_provider (reg : Registry) (p : Provider) : Registry :=
  reg ++ [p]

/-- remove_account_provider from src/lib.rs: retain every provider
whose name differs from the given one. -/
def remove_account_provider (reg : Registry) (name : String) : Registry :=
  reg.filter (fun p => !(p.provider_name == name))

/-- get_account_provider from src/lib.rs: first provider in
registration order whose name matches, if any. -/
def get_account_provider (reg : Registry) (name : String) : Option Provider :=
  reg.find? (fun p => p.provider_name == name)

/-- list_account_providers from src/lib.rs: every registered name in
registration order. -/
def list_account_providers (reg : Registry) : List String :=
  reg.map (fun p => p.provider_name)

/-- serde deserialization of an i64 out of a JSON value, used to
instantiate the generic typed accessor at a concrete target type. -/
def fromValueInt : Value → Option Int
  | .num n => some n
  | _ => none

/-! ### Helper lemmas -/

theorem charOfNat_toNat {n : Nat} (hv : n.isValidChar) :
    (Char.ofNat n).toNat = n := by
  simp [Char.ofNat, hv, Char.ofNatAux, Char.toNat, UInt32.toNat,
    BitVec.toNat_ofNatLt]

theorem normalizeChar_idem (c : Char) :
    normalizeChar (normalizeChar c) = normalizeChar c := by
  by_cases h : isAsciiAlphanumeric c = true
  · simp only [normalizeChar, h, if_true]
    by_cases hu : 65 ≤ c.toNat ∧ c.toNat ≤ 90
    · have hv : (c.toNat + 32).isValidChar := by
        unfold Nat.isValidChar
        omega
      have ht : (toAsciiLowercase c).toNat = c.toNat + 32 := by
        rw [toAsciiLowercase, if_pos hu, charOfNat_toNat hv]
      have halnum : isAsciiAlphanumeric (toAsciiLowercase c) = true := by
        simp [isAsciiAlphanumeric, ht]
        omega
      have hfix : toAsciiLowercase (toAsciiLowercase c) = toAsciiLowercase c := by
        rw [toAsciiLowercase, if_neg]
        rw [ht]
        omega
      simp [normalizeChar, halnum, hfix]
    · have ht : toAsciiLowercase c = c := by rw [toAsciiLowercase, if_neg hu]
      rw [ht]
      simp [normalizeChar, h, ht]
  · simp only [normalizeChar, h]
    simp
    decide

theorem deserializeRecord_serializeRecord (r : AccountRecord) :
    deserializeRecord (serializeRecord r) = some r := by
  obtain ⟨i, nm, av, tk, ex⟩ := r
  cases av <;> cases tk <;> rfl

theorem bridgeGet_bridgeSet_self (b : Bridge) (k : String) (v : Value) :
    bridgeGet (bridgeSet b k v) k = some v := by
  induction b with
  | nil => simp [bridgeSet, bridgeGet, List.find?]
  | cons p rest ih =>
    obtain ⟨k1, v1⟩ := p
    by_cases hk : k1 == k
    · simp [bridgeSet, hk, bridgeGet, List.find?]
    · simp only [bridgeSet, hk, Bool.false_eq_true, if_false]
      simpa [bridgeGet, List.find?, hk] using ih

theorem load_save (s : AccountStore) (b : Bridge) (r : AccountRecord) :
    s.load (s.save b r) = .ok (some r) := by
  rw [AccountStore.load, AccountStore.save, bridgeGet_bridgeSet_self]
  simp [deserializeRecord_serializeRecord]

theorem find?_append_of_all_false {α : Type} (p : α → Bool) (l1 l2 : List α)
    (h : ∀ a ∈ l1, p a = false) : (l1 ++ l2).find? p = l2.find? p := by
  induction l1 with
  | nil => rfl
  | cons a l ih =>
    have ha := h a (List.mem_cons_self a l)
    rw [List.cons_append, List.find?, ha]
    exact ih (fun x hx => h x (List.mem_cons_of_mem a hx))

/-! ### Claim theorems -/

/-- C1: for every AccountRecord with a valid (trimmed non-empty) id and
arbitrary extra map contents, save followed by load on the same store,
over a bridge that succeeds, returns Some of a record equal to the
saved one. -/
theorem save_load_roundtrip (s : AccountStore) (b : Bridge) (r : AccountRecord)
    (hvalid : (rustTrim r.id).isEmpty = false) :
    s.load (s.save b r) = .ok (some r) :=
  load_save s b r

theorem save_load_roundtrip_witness :
    (rustTrim (AccountRecord.new "alice" "Alice").id).isEmpty = false ∧
      (AccountStore.new "p").load
        ((AccountStore.new "p").save [] (AccountRecord.new "alice" "Alice")) =
        .ok (some (AccountRecord.new "alice" "Alice")) :=
  ⟨rfl, save_load_roundtrip (AccountStore.new "p") []
    (AccountRecord.new "alice" "Alice") rfl⟩

/-- C2: upsert_account on a record whose trimmed id is empty fails with
a validation error and leaves the bridge state untouched; on a record
whose trimmed id is non-empty it performs save and returns the record
unchanged. -/
theorem upsert_account_validation (s : AccountStore) (b : Bridge)
    (r : AccountRecord) :
    ((rustTrim r.id).isEmpty = true →
        s.upsert_account b r = (b, .error .validation)) ∧
      ((rustTrim r.id).isEmpty = false →
        s.upsert_account b r = (s.save b r, .ok r)) := by
  constructor
  · intro h
    rw [AccountStore.upsert_account, if_pos h]
  · intro h
    rw [AccountStore.upsert_account, if_neg (by simp [h])]

theorem upsert_account_validation_witness :
    ((AccountStore.new "p").upsert_account []
        { AccountRecord.new "x" "X" with id := " " } =
        ([], .error .validation)) ∧
      ((AccountStore.new "p").upsert_account [] (AccountRecord.new "x" "X") =
        ((AccountStore.new "p").save [] (AccountRecord.new "x" "X"),
          .ok (AccountRecord.new "x" "X"))) :=
  ⟨(upsert_account_validation (AccountStore.new "p") []
      { AccountRecord.new "x" "X" with id := " " }).1 rfl,
    (upsert_account_validation (AccountStore.new "p") []
      (AccountRecord.new "x" "X")).2 rfl⟩

/-- C3: remove_account returns Ok and leaves the bridge state unchanged
when the store is empty or the stored record id differs from the
requested one, and clears the store (bridge remove of the key) exactly
when the stored id matches. -/
theorem remove_account_cases (s : AccountStore) (b : Bridge) (i : String) :
    (s.load b = .ok none → s.remove_account b i = (b, .ok ())) ∧
      (∀ a, s.load b = .ok (some a) → a.id ≠ i →
        s.remove_account b i = (b, .ok ())) ∧
      (∀ a, s.load b = .ok (some a) → a.id = i →
        s.remove_account b i = (s.clear b, .ok ())) := by
  refine ⟨fun h => ?_, fun a h hne => ?_, fun a h he => ?_⟩
  · rw [AccountStore.remove_account, h]
  · rw [AccountStore.remove_account, h]
    simp [hne]
  · rw [AccountStore.remove_account, h]
    simp [he]

theorem remove_account_cases_witness :
    ((AccountStore.new "p").remove_account [] "z" = ([], .ok ())) ∧
      ((AccountStore.new "p").remove_account
          ((AccountStore.new "p").save [] (AccountRecord.new "a" "A")) "a" =
        ((AccountStore.new "p").clear
          ((AccountStore.new "p").save [] (AccountRecord.new "a" "A")),
          .ok ())) :=
  ⟨(remove_account_cases (AccountStore.new "p") [] "z").1 rfl,
    (remove_account_cases (AccountStore.new "p")
        ((AccountStore.new "p").save [] (AccountRecord.new "a" "A")) "a").2.2
      (AccountRecord.new "a" "A") (load_save _ _ _) rfl⟩

/-- C4: after registering p1 and then p2 with equal names into a
registry not yet holding that name, lookup of the name returns p1 (the
first registered entry), and the listed names end with the name twice,
in registration order. -/
theorem registry_duplicate_first_match (reg : Registry) (p1 p2 : Provider)
    (hname : p1.provider_name = p2.provider_name)
    (hfresh : ∀ q ∈ reg, q.provider_name ≠ p1.provider_name) :
    get_account_provider (add_account_provider (add_account_provider reg p1) p2)
        p1.provider_name = some p1 ∧
      list_account_providers
          (add_account_provider (add_account_provider reg p1) p2) =
        list_account_providers reg ++ [p1.provider_name, p2.provider_name] ∧
      (list_account_providers
        (add_account_provider (add_account_provider reg p1) p2)).count
        p1.provider_name = 2 := by
  have hpred : ∀ q ∈ reg, (q.provider_name == p1.provider_name) = false := by
    intro q hq
    simpa using hfresh q hq
  refine ⟨?_, ?_, ?_⟩
  · rw [add_account_provider, add_account_provider, get_account_provider,
      List.append_assoc, find?_append_of_all_false _ _ _ hpred]
    simp [List.find?]
  · simp [add_account_provider, list_account_providers]
  · rw [add_account_provider, add_account_provider, list_account_providers,
      List.append_assoc, List.map_append, List.count_append]
    have h0 : (reg.map (fun p => p.provider_name)).count p1.provider_name = 0 := by
      rw [List.count_eq_zero]
      intro hmem
      obtain ⟨q, hq, hqe⟩ := List.mem_map.1 hmem
      exact hfresh q hq hqe
    rw [h0]
    simp [List.count_cons, hname]

theorem registry_duplicate_first_match_witness :
    get_account_provider
        (add_account_provider (add_account_provider [] ⟨0, "a"⟩) ⟨1, "a"⟩) "a" =
        some ⟨0, "a"⟩ ∧
      (list_account_providers
        (add_account_provider (add_account_provider [] ⟨0, "a"⟩)
          ⟨1, "a"⟩)).count "a" = 2 := by
  have h := registry_duplicate_first_match [] ⟨0, "a"⟩ ⟨1, "a"⟩ rfl
    (fun q hq => absurd hq (List.not_mem_nil q))
  exact ⟨h.1, h.2.2⟩

/-- C5: remove_account_provider removes every entry whose name equals
the given one, keeps the remaining entries in their relative order (the
result is a sublist of the registry of exactly the non-matching
entries), and a subsequent lookup of the name returns none. -/
theorem remove_account_provider_removes_all (reg : Registry) (name : String) :
    (remove_account_provider reg name).all
        (fun p => !(p.provider_name == name)) = true ∧
      List.Sublist (remove_account_provider reg name) reg ∧
      (remove_account_provider reg name).length =
        reg.countP (fun p => !(p.provider_name == name)) ∧
      get_account_provider (remove_account_provider reg name) name = none := by
  refine ⟨?_, ?_, ?_, ?_⟩
  · rw [List.all_eq_true]
    intro p hp
    simp only [remove_account_provider] at hp
    exact (List.mem_filter.1 hp).2
  · exact List.filter_sublist reg
  · rw [remove_account_provider, ← List.countP_eq_length_filter]
  · rw [get_account_provider]
    cases hfind : (remove_account_provider reg name).find?
        (fun p => p.provider_name == name) with
    | none => rfl
    | some p =>
      have hmem := List.mem_of_find?_eq_some hfind
      have htrue := List.find?_some hfind
      simp only [remove_account_provider] at hmem
      have hfalse := (List.mem_filter.1 hmem).2
      rw [htrue] at hfalse
      simp at hfalse

/-- C6: key normalization is idempotent, the store key of a new
AccountStore is the fixed namespace token followed by the normalized
provider name, and normalization maps "My Provider!" to
"my_provider_". -/
theorem normalize_key_idempotent (s : String) :
    normalize_key (normalize_key s) = normalize_key s ∧
      (AccountStore.new s).key = "account_provider_" ++ normalize_key s ∧
      normalize_key "My Provider!" = "my_provider_" := by
  refine ⟨?_, rfl, by decide⟩
  have h1 : normalize_key (normalize_key s) =
      ⟨(s.data.map normalizeChar).map normalizeChar⟩ := rfl
  have h2 : normalizeChar ∘ normalizeChar = normalizeChar :=
    funext normalizeChar_idem
  rw [h1, List.map_map, h2]
  rfl

/-- C7: the typed extra accessor returns none both when the key is
absent and when the stored value does not deserialize into the target
type, and returns some of the deserialized value otherwise; the two
none results are the same value, hence indistinguishable to the
caller. -/
theorem extra_as_uniform_none {T : Type} (dec : Value → Option T)
    (r : AccountRecord) (key : String) :
    (r.extra_value key = none → r.extra_as dec key = none) ∧
      (∀ v, r.extra_value key = some v → dec v = none →
        r.extra_as dec key = none) ∧
      (∀ v t, r.extra_value key = some v → dec v = some t →
        r.extra_as dec key = some t) := by
  refine ⟨fun h => ?_, fun v h hd => ?_, fun v t h hd => ?_⟩
  · rw [AccountRecord.extra_as, h]
    rfl
  · rw [AccountRecord.extra_as, h, Option.some_bind, hd]
  · rw [AccountRecord.extra_as, h, Option.some_bind, hd]

theorem extra_as_uniform_none_witness :
    ({ AccountRecord.new "a" "A" with
        extra := [("k", Value.str "hello")] } : AccountRecord).extra_as
        fromValueInt "missing" = none ∧
      ({ AccountRecord.new "a" "A" with
        extra := [("k", Value.str "hello")] } : AccountRecord).extra_as
        fromValueInt "k" = none ∧
      ({ AccountRecord.new "a" "A" with
        extra := [("n", Value.num 7)] } : AccountRecord).extra_as
        fromValueInt "n" = some 7 :=
  ⟨(extra_as_uniform_none fromValueInt _ "missing").1 rfl,
    (extra_as_uniform_none fromValueInt _ "k").2.1 (Value.str "hello") rfl rfl,
    (extra_as_uniform_none fromValueInt _ "n").2.2 (Value.num 7) 7 rfl rfl⟩

/-- C8: list_accounts is the 0- or 1-element sequence wrapping load,
and get_account is load filtered by id equality: none when nothing is
stored, none when the stored id differs, and some of the stored record
when the id matches. -/
theorem list_get_account_from_load (s : AccountStore) (b : Bridge) (i : String) :
    (s.load b = .ok none →
        s.list_accounts b = .ok [] ∧ s.get_account b i = .ok none) ∧
      (∀ r, s.load b = .ok (some r) →
        s.list_accounts b = .ok [r] ∧
          s.get_account b i = .ok (if r.id == i then some r else none)) := by
  constructor
  · intro h
    constructor
    · rw [AccountStore.list_accounts, h]
      rfl
    · rw [AccountStore.get_account, h]
      rfl
  · intro r h
    constructor
    · rw [AccountStore.list_accounts, h]
      rfl
    · rw [AccountStore.get_account, h]
      rfl

theorem list_get_account_from_load_witness :
    ((AccountStore.new "p").list_accounts [] = .ok [] ∧
        (AccountStore.new "p").get_account [] "a" = .ok none) ∧
      ((AccountStore.new "p").list_accounts
          ((AccountStore.new "p").save [] (AccountRecord.new "a" "A")) =
            .ok [AccountRecord.new "a" "A"] ∧
        (AccountStore.new "p").get_account
          ((AccountStore.new "p").save [] (AccountRecord.new "a" "A")) "a" =
            .ok (if (AccountRecord.new "a" "A").id == "a" then
              some (AccountRecord.new "a" "A") else none)) :=
  ⟨(list_get_account_from_load (AccountStore.new "p") [] "a").1 rfl,
    (list_get_account_from_load (AccountStore.new "p")
        ((AccountStore.new "p").save [] (AccountRecord.new "a" "A")) "a").2
      (AccountRecord.new "a" "A") (load_save _ _ _)⟩

/-- C9: when the transport call of a mutating bridge operation
succeeds, the shared acknowledgement handling fails with a rejection
error exactly when the acknowledgement carries success=false and is Ok
exactly when it carries success=true; a transport failure maps to the
distinct transport error. -/
theorem ack_rejection_iff (success : Bool) :
    (handleAckReply (.ack success) = .error .rejection ↔ success = false) ∧
      (handleAckReply (.ack success) = .ok () ↔ success = true) ∧
      handleAckReply .transportFail = .error .transport ∧
      StoreError.rejection ≠ StoreError.transport := by
  cases success <;> simp [handleAckReply]

theorem ack_rejection_iff_witness :
    handleAckReply (.ack false) = .error .rejection :=
  ((ack_rejection_iff false).1).mpr rfl

/-- C10: a record whose id is non-empty after trimming but not equal to
its own trim is accepted by upsert_account and saved untrimmed; a
following get_account with the trimmed id returns none and
remove_account with the trimmed id leaves the bridge state unchanged,
while get_account with the exact untrimmed id returns the record. -/
theorem untrimmed_id_exact_match (s : AccountStore) (b : Bridge)
    (r : AccountRecord) (hvalid : (rustTrim r.id).isEmpty = false)
    (huntrim : rustTrim r.id ≠ r.id) :
    s.upsert_account b r = (s.save b r, .ok r) ∧
      s.get_account (s.save b r) r.id = .ok (some r) ∧
      s.get_account (s.save b r) (rustTrim r.id) = .ok none ∧
      s.remove_account (s.save b r) (rustTrim r.id) = (s.save b r, .ok ()) := by
  have hload := load_save s b r
  refine ⟨?_, ?_, ?_, ?_⟩
  · rw [AccountStore.upsert_account, if_neg (by simp [hvalid])]
  · rw [AccountStore.get_account, hload]
    simp [Except.map, Option.filter]
  · rw [AccountStore.get_account, hload]
    simp [Except.map, Option.filter]
    exact fun hc => absurd hc.symm huntrim
  · rw [AccountStore.remove_account, hload]
    simp
    exact fun hc => absurd hc.symm huntrim

theorem untrimmed_id_witness :
    (rustTrim " a ").isEmpty = false ∧ rustTrim " a " ≠ " a " ∧
      (AccountStore.new "p").get_account
          ((AccountStore.new "p").save [] (AccountRecord.new " a " "A"))
          (rustTrim " a ") = .ok none ∧
      (AccountStore.new "p").remove_account
          ((AccountStore.new "p").save [] (AccountRecord.new " a " "A"))
          (rustTrim " a ") =
        ((AccountStore.new "p").save [] (AccountRecord.new " a " "A"), .ok ()) := by
  have h := untrimmed_id_exact_match (AccountStore.new "p") []
    (AccountRecord.new " a " "A") rfl (by decide)
  exact ⟨rfl, by decide, h.2.2.1, h.2.2.2⟩

end AccountModule
